import Mathlib

/-
  Verification development for the `bpr-npm-audit` tool.

  The program runs `npm audit --json`, normalizes the result (one of two
  schema variants: an older `advisories` mapping, or a newer
  `vulnerabilities` mapping with `via` chains), decides a pass/fail
  outcome from the configured severity threshold, and publishes one
  summary report plus per-finding annotations to the Bitbucket commit
  report API.

  The definitions below are a shallow embedding of the current revision
  of the script (`src/unnamed/part_000` in this snapshot; `src/index.js`
  is an older published revision of the same file — where the two differ
  the current revision is embedded, and the difference is noted).
  JavaScript objects are modelled as association lists, JS `undefined`
  as `Option.none`, JS strings as Lean `String` (with `.data` exposing
  the character list), and the throwing property access
  `metadata.dependencies.total` on an absent `dependencies` field as an
  `Except.error`.
-/

/-- Per-annotation details limit documented by the report consumer (source: `MAX_DETAILS_LENGTH = 2000`). -/
def MAX_DETAILS_LENGTH : Nat := 2000

/-- Marker appended when details are truncated (source: `TRUNCATION_MESSAGE = '[...]'`). -/
def TRUNCATION_MESSAGE : String := "[...]"

/-- The ordered severity scale, index 0 least severe (source: `ORDERED_LEVELS`). -/
def ORDERED_LEVELS : List String := [("info"), ("low"), ("moderate"), ("high"), ("critical")]

/-- Display-severity table (source: `npmSeverityToBitbucketSeverity` in the current revision, where `critical` maps to `HIGH`). -/
def npmSeverityToBitbucketSeverity : List (String × String) :=
  [(("info"), ("LOW")), (("low"), ("LOW")), (("moderate"), ("MEDIUM")), (("high"), ("HIGH")), (("critical"), ("HIGH"))]

/-- JS object property read on an association list: `obj[key]`, `undefined` when absent. -/
def jsGet {β : Type} : List (String × β) → String → Option β
  | [], _ => none
  | p :: rest, k => if p.1 = k then some p.2 else jsGet rest k

/-- Helper for `jsIndexOf`: scan a list carrying the current index. -/
def jsIndexOfFrom (s : String) : List String → Int → Int
  | [], _ => -1
  | x :: xs, i => if x = s then i else jsIndexOfFrom s xs (i + 1)

/-- JS `Array.prototype.indexOf`: first index of `s` in `l`, or `-1` when absent. -/
def jsIndexOf (l : List String) (s : String) : Int := jsIndexOfFrom s l 0

/-- The configuration values read from the environment at startup
(`bitbucket.owner`, `bitbucket.slug`, `bitbucket.commit`, `reportName`,
`reportId`, `auditLevel`, `auditAnnotationLevel`); `none` for the
annotation level models the `BPR_LOG` variable being unset. -/
structure Config where
  owner : String
  slug : String
  commit : String
  reportName : String
  reportId : String
  auditLevel : String
  auditAnnotationLevel : Option String
deriving DecidableEq

/-- The summary-report URL (source: `baseUrl`, a join of the fixed pieces
with owner, slug, commit and report id interpolated). -/
def baseUrl (cfg : Config) : String :=
  ("https://api.bitbucket.org/2.0/repositories/") ++ cfg.owner ++ ("/") ++ cfg.slug
    ++ ("/commit/") ++ cfg.commit ++ ("/reports/") ++ cfg.reportId

/-- Minimum-severity annotation filter (source: `shouldAddAnnotation`):
always true when no level is configured, else true iff the finding
severity's scale index is at least the configured level's index (both
via JS `indexOf`, `-1` when not on the scale). -/
def shouldAnnotate (auditAnnotationLevel : Option String) (severity : String) : Bool :=
  match auditAnnotationLevel with
  | none => true
  | some lvl => decide (jsIndexOf ORDERED_LEVELS severity ≥ jsIndexOf ORDERED_LEVELS lvl)

/-- Count of vulnerabilities at a level, from `audit.metadata.vulnerabilities`;
an absent key reads as `undefined`, which is falsy like `0`. -/
def vulnCount (vc : List (String × Nat)) (level : String) : Nat :=
  (jsGet vc level).getD 0

/-- The reduce over the severity scale computing the highest level present
(source: `highestLevelIndex`): the last index whose count is truthy, `-1`
when none is. -/
def highestLevelIndex (vc : List (String × Nat)) : Int :=
  ORDERED_LEVELS.enum.foldl
    (fun value p => if vulnCount vc p.2 ≠ 0 then (p.1 : Int) else value) (-1)

/-- The summary `result` field (source, current revision:
`highestLevelIndex < ORDERED_LEVELS.indexOf(auditLevel) ? 'PASSED' : 'FAILED'`;
the older revision `src/index.js` used `<=` here). -/
def resultField (highestIdx : Int) (auditLevel : String) : String :=
  if highestIdx < jsIndexOf ORDERED_LEVELS auditLevel then ("PASSED") else ("FAILED")

/-- The summary `Safe to merge?` boolean data point (source:
`highestLevelIndex <= ORDERED_LEVELS.indexOf(auditLevel)`, in both revisions). -/
def safeToMergeField (highestIdx : Int) (auditLevel : String) : Bool :=
  decide (highestIdx ≤ jsIndexOf ORDERED_LEVELS auditLevel)

/-- `audit.metadata`: the per-level vulnerability counts, the nested
`dependencies` object (outer `none` = the field is absent; inner `Option`
= its `total` member), and the legacy flat `totalDependencies`. -/
structure Metadata where
  vulnerabilities : List (String × Nat)
  dependencies : Option (Option Nat)
  totalDependencies : Option Nat
deriving DecidableEq

/-- The dependency-count expression of the summary payload (source:
`audit.metadata.dependencies.total === undefined ? audit.metadata.totalDependencies : audit.metadata.dependencies.total`).
When the `dependencies` field is itself absent, the `.total` access throws
a `TypeError` in JS, modelled as `Except.error`; when `dependencies` is
present without `total`, the value falls back to `totalDependencies`
(possibly itself `undefined`, without error). -/
def dependencyValue (md : Metadata) : Except String (Option Nat) :=
  match md.dependencies with
  | none => Except.error ("TypeError: Cannot read property total of undefined")
  | some deps =>
    match deps with
    | none => Except.ok md.totalDependencies
    | some total => Except.ok (some total)

/-- Details truncation (source: both annotation branches run
`if (details.length > MAX_DETAILS_LENGTH) details = details.substring(0, MAX_DETAILS_LENGTH - TRUNCATION_MESSAGE.length) + TRUNCATION_MESSAGE`). -/
def truncateDetails (details : String) : String :=
  if details.length > MAX_DETAILS_LENGTH then
    String.mk (details.data.take (MAX_DETAILS_LENGTH - TRUNCATION_MESSAGE.length) ++ TRUNCATION_MESSAGE.data)
  else details

/-- Finding-identifier sanitization (source: `id.replaceAll('/', '-')`). -/
def sanitizeId (id : String) : String :=
  String.mk (id.data.map (fun c => if c = '/' then '-' else c))

/-- The annotation identifier path segment (source: the template
`${reportId}-${id.replaceAll('/', '-')}`; the report id itself is
interpolated verbatim, only the finding id is sanitized). -/
def annotationId (reportId id : String) : String :=
  reportId ++ ("-") ++ sanitizeId id

/-- The annotation URL (source: `${baseUrl}/annotations/${reportId}-${id.replaceAll('/', '-')}`). -/
def annotationUrl (b reportId id : String) : String :=
  b ++ ("/annotations/") ++ annotationId reportId id

/-- A SchemaA advisory record (`audit.advisories[id]`). -/
structure Advisory where
  module_name : String
  title : String
  overview : String
  recommendation : String
  url : String
  severity : String
deriving DecidableEq

/-- The JSON body of one annotation `PUT` (both branches build the same
shape: `annotation_type`, `summary`, `details`, `link`, `severity`; the
`severity` field is the display-table lookup, `undefined` (`none`) when
the scan severity is not in the table). -/
structure AnnotationBody where
  annotation_type : String
  summary : String
  details : String
  link : String
  severity : Option String
deriving DecidableEq

/-- The annotation payload built from a SchemaA advisory (source: the
object literal in the `audit.advisories` branch, with `details =
advisory.overview + '\n\n' + advisory.recommendation` truncated). -/
def advisoryAnnotationBody (adv : Advisory) : AnnotationBody :=
  { annotation_type := ("VULNERABILITY"),
    summary := adv.module_name ++ (": ") ++ adv.title,
    details := truncateDetails (adv.overview ++ ("\n\n") ++ adv.recommendation),
    link := adv.url,
    severity := jsGet npmSeverityToBitbucketSeverity adv.severity }

/-- The SchemaA branch (source: `for (const [id, advisory] of
Object.entries(audit.advisories))` with `if (shouldAddAnnotation(advisory.severity))`
guarding one `push` per advisory; no annotation counter exists in this
branch). Yields the ordered list of (url, body) publish calls. -/
def advisoryPushes (cfg : Config) (advisories : List (String × Advisory)) :
    List (String × AnnotationBody) :=
  advisories.filterMap (fun p =>
    if shouldAnnotate cfg.auditAnnotationLevel p.2.severity then
      some (annotationUrl (baseUrl cfg) cfg.reportId p.1, advisoryAnnotationBody p.2)
    else none)

/-- One element of a SchemaB node's `via` array: either a plain string
back-reference, or a structured detail object. In the detail case the
`name` member may be absent (`none`, JS `undefined`). -/
inductive ViaEntry where
  | strRef : String → ViaEntry
  | detail : Option String → String → String → String → String → ViaEntry
deriving DecidableEq

/-- JS `typeof v === 'string'` on a `via` element. -/
def ViaEntry.isStringEntry : ViaEntry → Bool
  | .strRef _ => true
  | .detail _ _ _ _ _ => false

/-- The destructured `name` of a `via` element; a plain string has no
`name` property, so it reads as `undefined`. -/
def ViaEntry.name : ViaEntry → Option String
  | .strRef _ => none
  | .detail n _ _ _ _ => n

/-- The destructured `title`; `undefined` on a plain string element,
which JS template interpolation would print as the text `undefined`
(never reached: such elements are skipped on their absent `name`). -/
def ViaEntry.title : ViaEntry → String
  | .strRef _ => ("undefined")
  | .detail _ t _ _ _ => t

/-- The destructured `url` (see `ViaEntry.title` for the string case). -/
def ViaEntry.url : ViaEntry → String
  | .strRef _ => ("undefined")
  | .detail _ _ u _ _ => u

/-- The destructured `severity` (see `ViaEntry.title` for the string case). -/
def ViaEntry.severity : ViaEntry → String
  | .strRef _ => ("undefined")
  | .detail _ _ _ sv _ => sv

/-- The destructured `range` (see `ViaEntry.title` for the string case). -/
def ViaEntry.range : ViaEntry → String
  | .strRef _ => ("undefined")
  | .detail _ _ _ _ r => r

/-- A SchemaB node (`audit.vulnerabilities[packageName]`): its `via`
array, its `effects` array of package names, and its own `range`
(read during effect resolution; `none` when absent). -/
structure VulnNode where
  via : List ViaEntry
  effects : List String
  range : Option String
deriving DecidableEq

/-- The node-skip test (source: `if (via && via.length && via.every(v => typeof v === 'string')) continue`):
a node whose `via` is non-empty and all plain strings is a derived
node and contributes nothing. -/
def nodeSkipped (via : List ViaEntry) : Bool :=
  !via.isEmpty && via.all ViaEntry.isStringEntry

/-- Effect range resolution (source:
`audit.vulnerabilities[name] && audit.vulnerabilities[name].range || '*'`):
the looked-up node's `range`, or `*` when the node or its range is
absent (or the range is the empty, falsy, string). -/
def effectRange (vulns : List (String × VulnNode)) (name : String) : String :=
  match jsGet vulns name with
  | none => ("*")
  | some node =>
    match node.range with
    | none => ("*")
    | some r => if r = ("") then ("*") else r

/-- The details text of a SchemaB finding before truncation (source: the
template `${name} (${range}) is a ${severity} rated issue "${title}"`,
the optional `which effects ...` clause joining each effect with its
resolved range, and the trailing `. For more information: ` + url). -/
def viaDetailsText (vulns : List (String × VulnNode)) (name range severity title url : String)
    (effects : List String) : String :=
  let base := name ++ (" (") ++ range ++ (") is a ") ++ severity
    ++ (" rated issue \"") ++ title ++ ("\"")
  let withEffects :=
    if !effects.isEmpty then
      base ++ (" which effects ")
        ++ String.intercalate (", ") (effects.map (fun n => n ++ (" (") ++ effectRange vulns n ++ (")")))
    else base
  withEffects ++ (". For more information: ") ++ url

/-- Whether a `via` element reaches the annotation counter: its `name`
is present, non-empty and not the literal text `undefined`, and it
passes the minimum-severity filter (the two `continue` guards of the
inner loop). -/
def entryEligible (cfg : Config) (e : ViaEntry) : Bool :=
  match e.name with
  | none => false
  | some n => !(n = ("") || n = ("undefined")) && shouldAnnotate cfg.auditAnnotationLevel e.severity

/-- One iteration of the inner `via` loop of the SchemaB branch, on the
state (annotationCount, publish calls so far). Source order: skip on
invalid `name`; skip on the severity filter; increment `annotationCount`;
skip (without pushing) when the counter has reached 1000; otherwise push
one annotation. -/
def viaEntryStep (cfg : Config) (vulns : List (String × VulnNode)) (b id : String)
    (effects : List String) (st : Nat × List (String × AnnotationBody)) (e : ViaEntry) :
    Nat × List (String × AnnotationBody) :=
  match e.name with
  | none => st
  | some name =>
    if name = ("") || name = ("undefined") then st
    else if !shouldAnnotate cfg.auditAnnotationLevel e.severity then st
    else
      let details := truncateDetails (viaDetailsText vulns name e.range e.severity e.title e.url effects)
      let annotationCount := st.1 + 1
      if annotationCount ≥ 1000 then (annotationCount, st.2)
      else
        (annotationCount, st.2 ++ [(annotationUrl b cfg.reportId id,
          { annotation_type := ("VULNERABILITY"),
            summary := name ++ (": ") ++ e.title,
            details := details,
            link := e.url,
            severity := jsGet npmSeverityToBitbucketSeverity e.severity })])

/-- One iteration of the outer node loop of the SchemaB branch: a node
whose `via` is non-empty and all strings is skipped whole; otherwise the
inner loop folds over its `via` elements. -/
def nodeStep (cfg : Config) (vulns : List (String × VulnNode)) (b : String)
    (st : Nat × List (String × AnnotationBody)) (p : String × VulnNode) :
    Nat × List (String × AnnotationBody) :=
  if nodeSkipped p.2.via then st
  else p.2.via.foldl (viaEntryStep cfg vulns b p.1 p.2.effects) st

/-- The SchemaB branch (source: `else if (audit.vulnerabilities)`):
folds the node loop over `Object.entries(audit.vulnerabilities)` with
`annotationCount` starting at 0 and no publishes yet; returns the final
counter and the ordered publish calls. -/
def vulnerabilityPushes (cfg : Config) (vulns : List (String × VulnNode)) :
    Nat × List (String × AnnotationBody) :=
  vulns.foldl (nodeStep cfg vulns (baseUrl cfg)) (0, [])

/-- The number of `via` elements that reach the annotation counter
(pass both `continue` guards) across all non-skipped nodes: the
eligible findings of the SchemaB branch. -/
def eligibleCount (cfg : Config) (vulns : List (String × VulnNode)) : Nat :=
  (vulns.map (fun p =>
    if nodeSkipped p.2.via then 0 else p.2.via.countP (entryEligible cfg))).sum

/-- The raw parsed `npm audit` output: metadata plus at most one of the
two schema variants (`some` models a present, truthy, object field). -/
structure Audit where
  metadata : Metadata
  advisories : Option (List (String × Advisory))
  vulnerabilities : Option (List (String × VulnNode))

/-- The annotation publishes of a run (source: the
`if (audit.advisories) ... else if (audit.vulnerabilities) ...` dispatch;
neither present means no annotations). -/
def auditAnnotationPushes (cfg : Config) (audit : Audit) : List (String × AnnotationBody) :=
  match audit.advisories with
  | some advisories => advisoryPushes cfg advisories
  | none =>
    match audit.vulnerabilities with
    | some vulns => (vulnerabilityPushes cfg vulns).2
    | none => []

/-- The summary report payload (source: the first `push` of
`pushAllReports`); the three `data` entries are flattened into the
`duration`, `dependencies` and `safeToMerge` fields. -/
structure SummaryReport where
  title : String
  details : String
  report_type : String
  reporter : String
  result : String
  duration : Int
  dependencies : Option Nat
  safeToMerge : Bool
deriving DecidableEq

/-- Builds the summary payload; evaluating the dependency data point can
throw (see `dependencyValue`), which aborts before anything is pushed. -/
def buildSummary (cfg : Config) (md : Metadata) (durationSeconds : Int) :
    Except String SummaryReport :=
  match dependencyValue md with
  | Except.error e => Except.error e
  | Except.ok dep =>
    Except.ok
      { title := cfg.reportName,
        details := ("Results of npm audit."),
        report_type := ("SECURITY"),
        reporter := cfg.owner,
        result := resultField (highestLevelIndex md.vulnerabilities) cfg.auditLevel,
        duration := durationSeconds,
        dependencies := dep,
        safeToMerge := safeToMergeField (highestLevelIndex md.vulnerabilities) cfg.auditLevel }

/-- A publish call's JSON body: the summary report or one annotation. -/
inductive PushBody where
  | summaryPush : SummaryReport → PushBody
  | annotationPush : AnnotationBody → PushBody

/-- The whole `pushAllReports` sequence: the summary `PUT` at `baseUrl`
first, then the per-finding annotation `PUT`s in order; an error while
building the summary payload aborts the run with no pushes. -/
def pushAllReports (cfg : Config) (audit : Audit) (durationSeconds : Int) :
    Except String (List (String × PushBody)) :=
  match buildSummary cfg audit.metadata durationSeconds with
  | Except.error e => Except.error e
  | Except.ok s =>
    Except.ok ((baseUrl cfg, PushBody.summaryPush s)
      :: (auditAnnotationPushes cfg audit).map (fun p => (p.1, PushBody.annotationPush p.2)))

/-- A concrete default-like configuration used in witnesses and
counterexamples (threshold `high`, no minimum annotation severity). -/
def cfg0 : Config :=
  { owner := ("o"), slug := ("s"), commit := ("c"),
    reportName := ("Security: npm audit"), reportId := ("npmaudit"),
    auditLevel := ("high"), auditAnnotationLevel := none }

/-- Concrete metadata with two `high` findings and `dependencies.total = 42`. -/
def md0 : Metadata :=
  { vulnerabilities := [(("high"), 2)], dependencies := some (some 42), totalDependencies := none }

/-- A structured `via` element that passes every annotation filter. -/
def eligibleEntry0 : ViaEntry :=
  ViaEntry.detail (some ("n")) ("t") ("u") ("critical") ("1")

/-- A SchemaB map holding one node with 1005 eligible `via` elements. -/
def vulns1005 : List (String × VulnNode) :=
  [(("p"), { via := eligibleEntry0 :: List.replicate 1004 eligibleEntry0, effects := [], range := none })]

/-- A concrete advisory at `critical` severity. -/
def advCrit0 : Advisory :=
  { module_name := ("m"), title := ("t"), overview := ("o"),
    recommendation := ("r"), url := ("u"), severity := ("critical") }

/-- Scanning from position `i`, JS `indexOf` yields `-1` or an index in `[i, i + length)`. -/
theorem jsIndexOfFrom_cases (s : String) :
    ∀ (l : List String) (i : Int),
      jsIndexOfFrom s l i = -1 ∨
        (i ≤ jsIndexOfFrom s l i ∧ jsIndexOfFrom s l i < i + l.length) := by
  intro l
  induction l with
  | nil => intro i; left; rfl
  | cons x xs ih =>
    intro i
    by_cases hx : x = s
    · right
      simp [jsIndexOfFrom, hx]
    · rcases ih (i + 1) with h | ⟨h1, h2⟩
      · left; simp [jsIndexOfFrom, hx, h]
      · right
        constructor
        · simp only [jsIndexOfFrom, hx, if_false]; omega
        · simp only [jsIndexOfFrom, hx, if_false, List.length_cons]
          push_cast
          omega

/-- When the key is present, JS `indexOf` starting at `i` is at least `i`. -/
theorem jsIndexOfFrom_ge_of_mem (s : String) :
    ∀ (l : List String) (i : Int), s ∈ l → i ≤ jsIndexOfFrom s l i := by
  intro l
  induction l with
  | nil => intro i h; cases h
  | cons x xs ih =>
    intro i h
    by_cases hx : x = s
    · simp [jsIndexOfFrom, hx]
    · have hs : s ∈ xs := by
        cases h with
        | head => exact absurd rfl hx
        | tail _ h => exact h
      have := ih (i + 1) hs
      simp only [jsIndexOfFrom, hx, if_false]
      omega

/-- A severity on the configured scale has a nonnegative index. -/
theorem jsIndexOf_nonneg_of_mem (l : List String) (s : String) (h : s ∈ l) :
    0 ≤ jsIndexOf l s :=
  jsIndexOfFrom_ge_of_mem s l 0 h

/-- Every index into the five-level scale is at most 4. -/
theorem jsIndexOf_le_four (s : String) : jsIndexOf ORDERED_LEVELS s ≤ 4 := by
  rcases jsIndexOfFrom_cases s ORDERED_LEVELS 0 with h | ⟨_, h2⟩
  · rw [jsIndexOf, h]; omega
  · rw [jsIndexOf]
    have : (ORDERED_LEVELS.length : Int) = 5 := by decide
    omega

/-- A `critical` finding passes the minimum-severity filter whatever the
configured level is. -/
theorem shouldAnnotate_critical (lvl : Option String) :
    shouldAnnotate lvl ("critical") = true := by
  cases lvl with
  | none => rfl
  | some l =>
    have h4 : jsIndexOf ORDERED_LEVELS ("critical") = 4 := by decide
    have := jsIndexOf_le_four l
    simp only [shouldAnnotate, h4, ge_iff_le, decide_eq_true_eq]
    omega

/-- C1: for every scan result and configured threshold on the scale, the
summary outcome is `PASSED` iff the highest severity index found is
strictly below the threshold's scale index; at equality the outcome is
`FAILED`, and a highest index of `-1` (nothing found) gives `PASSED` for
every valid threshold. -/
theorem result_passed_iff_strictly_below_threshold
    (vc : List (String × Nat)) (lvl : String) (hlvl : lvl ∈ ORDERED_LEVELS) :
    (resultField (highestLevelIndex vc) lvl = ("PASSED") ↔
      highestLevelIndex vc < jsIndexOf ORDERED_LEVELS lvl)
    ∧ (highestLevelIndex vc = jsIndexOf ORDERED_LEVELS lvl →
      resultField (highestLevelIndex vc) lvl = ("FAILED"))
    ∧ (highestLevelIndex vc = -1 →
      resultField (highestLevelIndex vc) lvl = ("PASSED")) := by
  have hpf : ("PASSED") ≠ ("FAILED") := by decide
  refine ⟨?_, ?_, ?_⟩
  · by_cases hc : highestLevelIndex vc < jsIndexOf ORDERED_LEVELS lvl
    · simp [resultField, hc]
    · rw [resultField, if_neg hc]
      exact ⟨fun h => absurd h.symm hpf, fun h => absurd h hc⟩
  · intro heq
    have hc : ¬ highestLevelIndex vc < jsIndexOf ORDERED_LEVELS lvl := by omega
    simp [resultField, hc]
  · intro heq
    have h0 := jsIndexOf_nonneg_of_mem ORDERED_LEVELS lvl hlvl
    have hc : highestLevelIndex vc < jsIndexOf ORDERED_LEVELS lvl := by omega
    simp [resultField, hc]

/-- Witness for C1: one `moderate` finding against threshold `high` is
`PASSED` (index 2 strictly below 3). -/
theorem result_passed_witness :
    resultField (highestLevelIndex [(("moderate"), 1)]) ("high") = ("PASSED") :=
  (result_passed_iff_strictly_below_threshold [(("moderate"), 1)] ("high") (by decide)).1.mpr
    (by decide)

/-- C3 (code bug): at a highest severity exactly at the threshold (two
`high` findings, threshold `high`), the summary payload carries result
`FAILED` together with the boolean data point `Safe to merge? = true`;
the boolean does not match the outcome because the source compares with
`<=` in the boolean but `<` in the result field. -/
theorem safe_to_merge_diverges_from_result :
    Except.map (fun s => (s.result, s.safeToMerge)) (buildSummary cfg0 md0 7)
      = Except.ok ((("FAILED"), true)) := by
  rfl

/-- C4: a details string longer than 2000 characters is truncated to
1995 characters with the five-character marker appended, yielding
exactly 2000 characters ending in the marker; a string of at most 2000
characters is published unchanged. -/
theorem details_truncation_spec (s : String) :
    (s.length > MAX_DETAILS_LENGTH →
      (truncateDetails s).length = 2000 ∧
        ∃ t, (truncateDetails s).data = t ++ TRUNCATION_MESSAGE.data)
    ∧ (s.length ≤ MAX_DETAILS_LENGTH → truncateDetails s = s) := by
  constructor
  · intro h
    have hdata : s.data.length = s.length := String.length_data s
    constructor
    · rw [truncateDetails, if_pos h, String.length_mk, List.length_append,
        List.length_take]
      have : TRUNCATION_MESSAGE.data.length = 5 := by decide
      rw [this]
      rw [show MAX_DETAILS_LENGTH - TRUNCATION_MESSAGE.length = 1995 from by decide]
      have : MAX_DETAILS_LENGTH = 2000 := rfl
      omega
    · rw [truncateDetails, if_pos h]
      exact ⟨_, rfl⟩
  · intro h
    rw [truncateDetails, if_neg (by omega)]

/-- Witness for C4: a 2001-character string truncates to length 2000,
and a 2-character string is unchanged. -/
theorem details_truncation_witness :
    (truncateDetails (String.mk (List.replicate 2001 'a'))).length = 2000 ∧
      truncateDetails ("ab") = ("ab") :=
  ⟨((details_truncation_spec (String.mk (List.replicate 2001 'a'))).1
      (by rw [String.length_mk, List.length_replicate]; decide)).1,
    (details_truncation_spec ("ab")).2 (by decide)⟩

/-- C5: the finding identifier is sanitized before use in the annotation
key: the sanitized identifier never contains a slash (every slash is
replaced by a dash, as on the concrete identifier from the spec), and
the annotation path segment is built from the sanitized identifier. -/
theorem finding_id_sanitized_in_key :
    (∀ id : String, ('/') ∉ (sanitizeId id).data)
    ∧ sanitizeId ("@scope/pkg") = ("@scope-pkg")
    ∧ ∀ reportId id : String,
        annotationId reportId id = reportId ++ ("-") ++ sanitizeId id := by
  refine ⟨?_, by decide, fun _ _ => rfl⟩
  intro id h
  rcases List.mem_map.1 h with ⟨c, _, hc⟩
  by_cases h' : c = '/'
  · rw [if_pos h'] at hc
    exact absurd hc (by decide)
  · rw [if_neg h'] at hc
    exact h' hc

/-- C6 counterexample: with the `dependencies` object absent but the
legacy `totalDependencies` present (value 42), the extraction throws a
type error even though one of the two fields is present; and with both
the nested total and the legacy field absent (but the `dependencies`
object present), no error is raised at all — the value is simply
`undefined`. -/
theorem dependency_extraction_throws_cex :
    dependencyValue
        { vulnerabilities := [], dependencies := none, totalDependencies := some 42 }
      = Except.error ("TypeError: Cannot read property total of undefined")
    ∧ dependencyValue
        { vulnerabilities := [], dependencies := some none, totalDependencies := none }
      = Except.ok none :=
  ⟨rfl, rfl⟩

/-- C6 amended: extraction prefers `dependencies.total` when the
`dependencies` object is present with a `total`; when `dependencies` is
present without `total` it falls back to `totalDependencies`, without
error even when that is also absent; and when the `dependencies` object
itself is absent it throws a type error regardless of
`totalDependencies`. -/
theorem dependency_extraction_characterization
    (vc : List (String × Nat)) (td : Option Nat) :
    (∃ e, dependencyValue
        { vulnerabilities := vc, dependencies := none, totalDependencies := td }
      = Except.error e)
    ∧ dependencyValue
        { vulnerabilities := vc, dependencies := some none, totalDependencies := td }
      = Except.ok td
    ∧ ∀ n, dependencyValue
        { vulnerabilities := vc, dependencies := some (some n), totalDependencies := td }
      = Except.ok (some n) :=
  ⟨⟨_, rfl⟩, rfl, fun _ => rfl⟩

/-- C10: the configured report id is embedded verbatim (as a prefix) in
every annotation key, and for a report id containing a slash every
annotation key contains a slash, whatever the finding identifier is. -/
theorem report_id_verbatim_in_key :
    (∀ reportId id : String, ∃ t, (annotationId reportId id).data = reportId.data ++ t)
    ∧ ∀ id : String, ('/') ∈ (annotationId ("my/report") id).data := by
  constructor
  · intro reportId id
    refine ⟨("-").data ++ (sanitizeId id).data, ?_⟩
    simp [annotationId]
  · intro id
    have h1 : (annotationId ("my/report") id).data
        = ("my/report").data ++ (("-").data ++ (sanitizeId id).data) := by
      simp [annotationId]
    rw [h1]
    exact List.mem_append_left _ (by decide)

/-- One inner-loop step advances the annotation counter by one exactly
when the `via` element is eligible, and leaves it unchanged otherwise. -/
theorem viaEntryStep_fst (cfg : Config) (vulns : List (String × VulnNode)) (b id : String)
    (effects : List String) (st : Nat × List (String × AnnotationBody)) (e : ViaEntry) :
    (viaEntryStep cfg vulns b id effects st e).1
      = st.1 + (if entryEligible cfg e then 1 else 0) := by
  cases e with
  | strRef s => simp [viaEntryStep, entryEligible, ViaEntry.name]
  | detail n t u sv r =>
    cases n with
    | none => simp [viaEntryStep, entryEligible, ViaEntry.name]
    | some nm =>
      simp only [viaEntryStep, entryEligible, ViaEntry.name, ViaEntry.severity]
      split_ifs <;> simp_all

/-- One inner-loop step preserves the invariant that the number of
annotation publishes so far is the counter capped at 999. -/
theorem viaEntryStep_len (cfg : Config) (vulns : List (String × VulnNode)) (b id : String)
    (effects : List String) (st : Nat × List (String × AnnotationBody)) (e : ViaEntry)
    (h : st.2.length = min st.1 999) :
    (viaEntryStep cfg vulns b id effects st e).2.length
      = min (viaEntryStep cfg vulns b id effects st e).1 999 := by
  cases e with
  | strRef s => simpa [viaEntryStep, ViaEntry.name] using h
  | detail n t u sv r =>
    cases n with
    | none => simpa [viaEntryStep, ViaEntry.name] using h
    | some nm =>
      simp only [viaEntryStep, ViaEntry.name, ViaEntry.severity]
      split_ifs <;> simp_all [List.length_append] <;> omega

/-- Folding the inner loop over a `via` list adds the number of its
eligible elements to the annotation counter. -/
theorem foldVia_fst (cfg : Config) (vulns : List (String × VulnNode)) (b id : String)
    (effects : List String) :
    ∀ (via : List ViaEntry) (st : Nat × List (String × AnnotationBody)),
      (via.foldl (viaEntryStep cfg vulns b id effects) st).1
        = st.1 + via.countP (entryEligible cfg) := by
  intro via
  induction via with
  | nil => intro st; simp
  | cons e rest ih =>
    intro st
    rw [List.foldl_cons, ih, viaEntryStep_fst, List.countP_cons]
    by_cases h : entryEligible cfg e = true
    · simp only [h, if_true]
      omega
    · simp only [h, if_false]
      omega

/-- Folding the inner loop preserves the capped-count invariant. -/
theorem foldVia_len (cfg : Config) (vulns : List (String × VulnNode)) (b id : String)
    (effects : List String) :
    ∀ (via : List ViaEntry) (st : Nat × List (String × AnnotationBody)),
      st.2.length = min st.1 999 →
      (via.foldl (viaEntryStep cfg vulns b id effects) st).2.length
        = min (via.foldl (viaEntryStep cfg vulns b id effects) st).1 999 := by
  intro via
  induction via with
  | nil => intro st h; simpa using h
  | cons e rest ih =>
    intro st h
    rw [List.foldl_cons]
    exact ih _ (viaEntryStep_len cfg vulns b id effects st e h)

/-- One node-loop step adds the node's eligible element count to the
annotation counter (zero when the node is skipped). -/
theorem nodeStep_fst (cfg : Config) (vulns : List (String × VulnNode)) (b : String)
    (st : Nat × List (String × AnnotationBody)) (p : String × VulnNode) :
    (nodeStep cfg vulns b st p).1
      = st.1 + (if nodeSkipped p.2.via then 0 else p.2.via.countP (entryEligible cfg)) := by
  rw [nodeStep]
  by_cases h : nodeSkipped p.2.via <;> simp [h, foldVia_fst]

/-- One node-loop step preserves the capped-count invariant. -/
theorem nodeStep_len (cfg : Config) (vulns : List (String × VulnNode)) (b : String)
    (st : Nat × List (String × AnnotationBody)) (p : String × VulnNode)
    (h : st.2.length = min st.1 999) :
    (nodeStep cfg vulns b st p).2.length = min (nodeStep cfg vulns b st p).1 999 := by
  rw [nodeStep]
  by_cases hn : nodeSkipped p.2.via
  · simpa [hn] using h
  · simpa [hn] using foldVia_len cfg vulns b p.1 p.2.effects p.2.via st h

/-- Folding the node loop accumulates the per-node eligible counts. -/
theorem foldNodes_fst (cfg : Config) (vulns : List (String × VulnNode)) (b : String) :
    ∀ (l : List (String × VulnNode)) (st : Nat × List (String × AnnotationBody)),
      (l.foldl (nodeStep cfg vulns b) st).1
        = st.1 + (l.map (fun p =>
            if nodeSkipped p.2.via then 0 else p.2.via.countP (entryEligible cfg))).sum := by
  intro l
  induction l with
  | nil => intro st; simp
  | cons p rest ih =>
    intro st
    rw [List.foldl_cons, ih, nodeStep_fst]
    simp
    omega

/-- Folding the node loop preserves the capped-count invariant. -/
theorem foldNodes_len (cfg : Config) (vulns : List (String × VulnNode)) (b : String) :
    ∀ (l : List (String × VulnNode)) (st : Nat × List (String × AnnotationBody)),
      st.2.length = min st.1 999 →
      (l.foldl (nodeStep cfg vulns b) st).2.length
        = min (l.foldl (nodeStep cfg vulns b) st).1 999 := by
  intro l
  induction l with
  | nil => intro st h; simpa using h
  | cons p rest ih =>
    intro st h
    rw [List.foldl_cons]
    exact ih _ (nodeStep_len cfg vulns b st p h)

/-- The final annotation counter of the SchemaB branch is exactly the
number of eligible findings. -/
theorem vulnerabilityPushes_fst (cfg : Config) (vulns : List (String × VulnNode)) :
    (vulnerabilityPushes cfg vulns).1 = eligibleCount cfg vulns := by
  rw [vulnerabilityPushes, foldNodes_fst, eligibleCount]
  simp

/-- The SchemaB branch publishes exactly the number of eligible findings
capped at 999 (the counter is incremented before the `>= 1000` check, so
the 1000th eligible finding is already skipped). -/
theorem vulnerabilityPushes_len (cfg : Config) (vulns : List (String × VulnNode)) :
    (vulnerabilityPushes cfg vulns).2.length = min (eligibleCount cfg vulns) 999 := by
  have h := foldNodes_len cfg vulns (baseUrl cfg) vulns (0, []) (by simp)
  rw [vulnerabilityPushes, h, foldNodes_fst, eligibleCount]
  simp

/-- Counting a predicate over a replicated list. -/
theorem countP_replicate {α : Type} (p : α → Bool) :
    ∀ (n : Nat) (a : α), List.countP p (List.replicate n a) = if p a then n else 0 := by
  intro n
  induction n with
  | zero => intro a; simp
  | succ m ih =>
    intro a
    rw [List.replicate_succ, List.countP_cons, ih]
    by_cases h : p a <;> simp [h]

/-- The concrete 1005-element node yields 1005 eligible findings. -/
theorem eligibleCount_vulns1005 : eligibleCount cfg0 vulns1005 = 1005 := by
  have hskip : nodeSkipped (eligibleEntry0 :: List.replicate 1004 eligibleEntry0) = false := by
    rw [nodeSkipped, List.all_cons, show ViaEntry.isStringEntry eligibleEntry0 = false from rfl,
      Bool.false_and, Bool.and_false]
  have he : entryEligible cfg0 eligibleEntry0 = true := by decide
  simp only [eligibleCount, vulns1005, List.map_cons, List.map_nil, List.sum_cons, List.sum_nil,
    hskip, Bool.false_eq_true, if_false, List.countP_cons, countP_replicate, he, if_true]
  omega

/-- C2 amended: the SchemaB branch publishes exactly the number of
eligible findings capped at 999 — once 999 annotations have been
emitted, further eligible findings are silently skipped (the counter is
incremented before the `>= 1000` check, so the 1000th eligible finding
is already skipped); the final counter itself equals the eligible
finding count. -/
theorem annotation_cap_publishes_min_999 (cfg : Config) (vulns : List (String × VulnNode)) :
    (vulnerabilityPushes cfg vulns).2.length = min (eligibleCount cfg vulns) 999
    ∧ (vulnerabilityPushes cfg vulns).1 = eligibleCount cfg vulns :=
  ⟨vulnerabilityPushes_len cfg vulns, vulnerabilityPushes_fst cfg vulns⟩

/-- C2 counterexample: on a concrete SchemaB input with 1005 eligible
findings, only 999 annotation publish calls occur — not 1000 as claimed. -/
theorem annotation_cap_1005_cex :
    eligibleCount cfg0 vulns1005 = 1005
    ∧ (vulnerabilityPushes cfg0 vulns1005).2.length = 999
    ∧ ¬ (vulnerabilityPushes cfg0 vulns1005).2.length = 1000 := by
  have h1 := eligibleCount_vulns1005
  have h2 := vulnerabilityPushes_len cfg0 vulns1005
  rw [h1] at h2
  norm_num at h2
  exact ⟨h1, h2, by omega⟩

/-- C7: a SchemaB node whose `via` list is non-empty and consists only
of plain string entries contributes nothing: the node-loop step leaves
both the annotation counter and the publish list untouched. -/
theorem all_string_via_node_no_findings (cfg : Config) (vulns : List (String × VulnNode))
    (b id : String) (st : Nat × List (String × AnnotationBody)) (node : VulnNode)
    (h1 : node.via ≠ []) (h2 : ∀ e ∈ node.via, ViaEntry.isStringEntry e = true) :
    nodeStep cfg vulns b st (id, node) = st := by
  have hall : node.via.all ViaEntry.isStringEntry = true := List.all_eq_true.mpr h2
  have hne : node.via.isEmpty = false := by
    cases hv : node.via with
    | nil => exact absurd hv h1
    | cons x xs => rfl
  have hs : nodeSkipped node.via = true := by
    rw [nodeSkipped, hne, hall]
    rfl
  rw [nodeStep]
  simp [hs]

/-- Witness for C7: a node whose `via` is one plain string yields no
change of state. -/
theorem all_string_via_node_witness :
    nodeStep cfg0 [] ("") (0, [])
      (("a"), { via := [ViaEntry.strRef ("x")], effects := [], range := none }) = (0, []) :=
  all_string_via_node_no_findings cfg0 [] ("") ("a") (0, [])
    { via := [ViaEntry.strRef ("x")], effects := [], range := none }
    (by decide) (by decide)

/-- C8: a `via` element whose `name` is absent, empty, or the literal
text `undefined` is skipped by the inner loop: no finding, no publish,
no counter change. -/
theorem invalid_name_entry_no_finding (cfg : Config) (vulns : List (String × VulnNode))
    (b id : String) (effects : List String) (st : Nat × List (String × AnnotationBody))
    (e : ViaEntry)
    (h : e.name = none ∨ e.name = some ("") ∨ e.name = some ("undefined")) :
    viaEntryStep cfg vulns b id effects st e = st := by
  rcases h with h | h | h <;> simp [viaEntryStep, h]

/-- Witness for C8: an element named `undefined` leaves the state as is. -/
theorem invalid_name_entry_witness :
    viaEntryStep cfg0 [] ("") ("id") [] (5, [])
      (ViaEntry.detail (some ("undefined")) ("t") ("u") ("critical") ("1")) = (5, []) :=
  invalid_name_entry_no_finding cfg0 [] ("") ("id") [] (5, [])
    (ViaEntry.detail (some ("undefined")) ("t") ("u") ("critical") ("1"))
    (Or.inr (Or.inr rfl))

/-- The SchemaA branch publishes one annotation per advisory passing the
minimum-severity filter. -/
theorem advisoryPushes_length (cfg : Config) :
    ∀ (advisories : List (String × Advisory)),
      (advisoryPushes cfg advisories).length
        = advisories.countP (fun p => shouldAnnotate cfg.auditAnnotationLevel p.2.severity) := by
  intro advisories
  induction advisories with
  | nil => rfl
  | cons p rest ih =>
    simp only [advisoryPushes] at ih ⊢
    rw [List.filterMap_cons, List.countP_cons]
    by_cases h : shouldAnnotate cfg.auditAnnotationLevel p.2.severity = true
    · simp only [h, if_true, List.length_cons, ih]
    · simp only [h, if_false, ih]
      exact ih

/-- C9: in the SchemaA branch no annotation cap exists — the number of
publish calls equals the number of advisories passing the filter, for
every advisory list, and every publish count is attainable (in
particular counts beyond 1000). -/
theorem schema_a_uncapped (cfg : Config) :
    (∀ advisories : List (String × Advisory),
      (advisoryPushes cfg advisories).length
        = advisories.countP (fun p => shouldAnnotate cfg.auditAnnotationLevel p.2.severity))
    ∧ ∀ n : Nat, ∃ advisories : List (String × Advisory),
        (advisoryPushes cfg advisories).length = n := by
  refine ⟨advisoryPushes_length cfg, ?_⟩
  intro n
  refine ⟨List.replicate n ((("1"), advCrit0)), ?_⟩
  rw [advisoryPushes_length cfg, countP_replicate]
  rw [show advCrit0.severity = ("critical") from rfl, shouldAnnotate_critical]
  rfl
